import Mathlib

/-!
Shallow embedding of the covid reporting pipeline in `src/assets.py`
(pandas + dagster).  Tables are lists of typed rows; pandas float cells
(which may hold NaN or infinities) are modelled by `FVal`, an IEEE-style
value over exact rationals; pandas datetime cells by `DateVal`.
Each dagster op of the source becomes a Lean function of the same name.
-/

/-- Model of a pandas float cell: NaN, plus and minus infinity, or a finite
value (modelled as an exact rational; binary rounding is out of scope). -/
inductive FVal where
  | nan : FVal
  | inf : FVal
  | ninf : FVal
  | fin (q : ℚ) : FVal
deriving DecidableEq, Inhabited, Repr

def FVal.isNan : FVal → Bool
  | .nan => true
  | _ => false

def FVal.isFin : FVal → Bool
  | .fin _ => true
  | _ => false

/-- Finite part of a float value (0 for NaN and the infinities). -/
def FVal.finPart : FVal → ℚ
  | .fin q => q
  | _ => 0

/-- IEEE-style addition on `FVal` (sign of zero ignored, exact rationals). -/
def fadd : FVal → FVal → FVal
  | .nan, _ => .nan
  | _, .nan => .nan
  | .inf, .ninf => .nan
  | .ninf, .inf => .nan
  | .inf, _ => .inf
  | _, .inf => .inf
  | .ninf, _ => .ninf
  | _, .ninf => .ninf
  | .fin a, .fin b => .fin (a + b)

/-- IEEE-style multiplication on `FVal`. -/
def fmul : FVal → FVal → FVal
  | .nan, _ => .nan
  | _, .nan => .nan
  | .inf, .inf => .inf
  | .inf, .ninf => .ninf
  | .ninf, .inf => .ninf
  | .ninf, .ninf => .inf
  | .inf, .fin b => if 0 < b then .inf else if b < 0 then .ninf else .nan
  | .fin a, .inf => if 0 < a then .inf else if a < 0 then .ninf else .nan
  | .ninf, .fin b => if 0 < b then .ninf else if b < 0 then .inf else .nan
  | .fin a, .ninf => if 0 < a then .ninf else if a < 0 then .inf else .nan
  | .fin a, .fin b => .fin (a * b)

/-- IEEE-style division on `FVal`: division by zero yields an infinity
(or NaN for 0/0), never an error. -/
def fdiv : FVal → FVal → FVal
  | .nan, _ => .nan
  | _, .nan => .nan
  | .inf, .inf => .nan
  | .inf, .ninf => .nan
  | .ninf, .inf => .nan
  | .ninf, .ninf => .nan
  | .inf, .fin b => if b < 0 then .ninf else .inf
  | .ninf, .fin b => if b < 0 then .inf else .ninf
  | .fin _, .inf => .fin 0
  | .fin _, .ninf => .fin 0
  | .fin a, .fin b =>
      if b = 0 then (if 0 < a then .inf else if a < 0 then .ninf else .nan)
      else .fin (a / b)

/-- IEEE-style `≤` comparison: any comparison against NaN is false. -/
def fle : FVal → FVal → Bool
  | .nan, _ => false
  | _, .nan => false
  | .ninf, _ => true
  | _, .ninf => false
  | _, .inf => true
  | .inf, _ => false
  | .fin a, .fin b => decide (a ≤ b)

/-- Sum of a list of float values (empty sum is 0, as in pandas). -/
def fsum (l : List FVal) : FVal := l.foldr fadd (.fin 0)

/-- Model of a pandas datetime-or-text cell: an unparsed string (as read
from the CSV), a parsed timestamp (a calendar date encoded as the natural
number `y*10000 + m*100 + d`, which is order-preserving), or the missing
sentinel NaT. -/
inductive DateVal where
  | str (s : String) : DateVal
  | ts (n : Nat) : DateVal
  | na : DateVal
deriving DecidableEq, Inhabited, Repr

def DateVal.isStr : DateVal → Bool
  | .str _ => true
  | _ => false

/-- Split a character list into dash-separated groups. -/
def splitDash : List Char → List (List Char)
  | [] => [[]]
  | c :: cs =>
      match splitDash cs, decide (c = Char.ofNat 45) with
      | rest, true => [] :: rest
      | [], false => [[c]]
      | g :: gs, false => (c :: g) :: gs

/-- Decimal value of a digit group (`none` on a non-digit character). -/
def digitsToNatAux : List Char → Nat → Option Nat
  | [], acc => some acc
  | c :: cs, acc =>
      if c.isDigit then digitsToNatAux cs (acc * 10 + (c.toNat - 48)) else none

def digitsToNat : List Char → Option Nat
  | [] => none
  | cs => digitsToNatAux cs 0

/-- Model of `pd.to_datetime` on one ISO `YYYY-MM-DD` cell: the library
accepts more formats, but the source CSV carries ISO dates, so parse
success means three dash-separated decimal groups (4-digit year, month
in 1..12, day in 1..31); anything else fails to parse. -/
def parseISO (s : String) : Option Nat :=
  match splitDash s.data with
  | [ys, ms, ds] =>
      match digitsToNat ys, digitsToNat ms, digitsToNat ds with
      | some y, some m, some d =>
          if 1 ≤ m ∧ m ≤ 12 ∧ 1 ≤ d ∧ d ≤ 31 ∧ ys.length = 4 then
            some (y * 10000 + m * 100 + d)
          else none
      | _, _, _ => none
  | _ => none

/-- One observation row, restricted to the five columns the pipeline
projects to (`datos_procesados` keeps exactly these).  A missing country
is `none`, missing numeric cells are `FVal.nan`, a missing date is
`DateVal.na`. -/
structure Row where
  country : Option String
  date : DateVal
  new_cases : FVal
  people_vaccinated : FVal
  population : FVal
deriving DecidableEq, Inhabited, Repr

/-- Derived row of the incidence sheet (source renames date→fecha,
country→país and keeps `incidencia_7d`). -/
structure IncOut where
  fecha : DateVal
  pais : Option String
  incidencia_7d : FVal
deriving DecidableEq, Inhabited, Repr

/-- Derived row of the growth-factor sheet (source renames
date→semana_fin, country→país, casos_semana_actual→casos_semana). -/
structure GrowthOut where
  semana_fin : DateVal
  pais : Option String
  casos_semana : FVal
  factor_crec_7d : FVal
deriving DecidableEq, Inhabited, Repr

/-- A pandas DataFrame as the pipeline passes it between ops: either the
bare `pd.DataFrame()` the reader builds on transport failure — an empty
frame with NO columns, on which any column access raises `KeyError` — or
a frame carrying the observation columns together with its (possibly
empty) list of rows.  A zero-row `tabla []` still has its header. -/
inductive Frame where
  | sinColumnas : Frame
  | tabla (rows : List Row) : Frame
deriving DecidableEq, Repr

/-! ## Source Reader (`leer_datos`) -/

/-- Body of an HTTP response: either a well-formed CSV that parses to a
table, or a malformed payload on which `pd.read_csv` raises. -/
inductive Payload where
  | tabla (rows : List Row) : Payload
  | malformado : Payload
deriving DecidableEq, Repr

/-- Outcome of `requests.get`: a completed response with a status code,
or a timeout (`requests.get` raises `requests.exceptions.Timeout`). -/
inductive Transport where
  | timeout : Transport
  | respuesta (status : Nat) (body : Payload) : Transport
deriving DecidableEq, Repr

/-- Exceptions that can escape `leer_datos`: the uncaught
`requests` timeout and the uncaught `pd.read_csv` parse error
(the source has no try/except). -/
inductive ReadErr where
  | timeoutErr : ReadErr
  | parseErr : ReadErr
deriving DecidableEq, Repr

/-- `leer_datos`: checks only `status_code != 200`, returning the bare
`pd.DataFrame()` — the column-less empty frame — in that case; a
transport timeout raises inside `requests.get` before that check, and a
malformed body makes `pd.read_csv` raise.  A successful response yields
the parsed frame with its columns. -/
def leer_datos : Transport → Except ReadErr Frame
  | .timeout => .error .timeoutErr
  | .respuesta status body =>
      if status ≠ 200 then .ok .sinColumnas
      else
        match body with
        | .tabla rows => .ok (.tabla rows)
        | .malformado => .error .parseErr

/-! ## Quality Gate (`chequear_datos`) -/

/-- The coercion `pd.to_datetime(col, errors="coerce")` on one cell:
strings are parsed (unparsable becomes NaT), datetimes and NaT are kept. -/
def coerceDate : DateVal → DateVal
  | .str s =>
      match parseISO s with
      | some n => .ts n
      | none => .na
  | d => d

def coerceRow (r : Row) : Row := { r with date := coerceDate r.date }

/-- `chequear_datos` on a frame that has its columns: writes the coerced
date column back into the frame and returns it; the three checks below
only print alerts.  (On the column-less `pd.DataFrame()` the op raises
instead — see `chequear_datos_frame`.) -/
def chequear_datos (t : List Row) (hoy : Nat) : List Row :=
  t.map coerceRow

/-- Exception raised by pandas column access: `df[col]` on a frame that
lacks `col` raises `KeyError(col)`. -/
inductive GateErr where
  | keyError (col : String) : GateErr
deriving DecidableEq, Repr

/-- `chequear_datos` as it behaves on an arbitrary incoming frame: its
first statement evaluates `df["date"]`, which on the column-less
`pd.DataFrame()` (the reader's output on transport failure) raises
`KeyError('date')` — the gate has no handler, so the exception escapes. -/
def chequear_datos_frame : Frame → Nat → Except GateErr (List Row)
  | .sinColumnas, _ => .error (.keyError "date")
  | .tabla rows, hoy => .ok (chequear_datos rows hoy)

/-- The comparison `df["date"] > hoy` on one (already coerced) cell:
NaT compares false. -/
def isFuture (d : DateVal) (hoy : Nat) : Bool :=
  match d with
  | .ts n => decide (hoy < n)
  | _ => false

/-- Count of rows with a future date, as computed by the gate on the
coerced frame. -/
def fechasInvalidas (t : List Row) (hoy : Nat) : Nat :=
  ((chequear_datos t hoy).filter (fun r => isFuture r.date hoy)).length

/-- Null cells of one row over the key columns country, date, population
(`df[columnas_clave].isna().sum().sum()` contribution of the row). -/
def rowNulls (r : Row) : Nat :=
  (if r.country = none then 1 else 0) +
    (if r.date = DateVal.na then 1 else 0) +
    (if r.population.isNan then 1 else 0)

/-- Total null-key cells of the (coerced) frame. -/
def nullKeyCells (t : List Row) : Nat := (t.map rowNulls).sum

/-- `df.duplicated(subset=["country","date"]).sum()`: rows whose
(country, date) pair already occurred earlier in the frame. -/
def dupPairsAux (seen : List (Option String × DateVal)) : List Row → Nat
  | [] => 0
  | r :: rest =>
      (if (r.country, r.date) ∈ seen then 1 else 0) +
        dupPairsAux ((r.country, r.date) :: seen) rest

def dupPairs (t : List Row) : Nat := dupPairsAux [] t

/-- The three alert counts the gate logs (computed on the coerced frame,
in source order: future dates, null keys, duplicate keys). -/
def chequear_alertas (t : List Row) (hoy : Nat) : Nat × Nat × Nat :=
  (fechasInvalidas t hoy, nullKeyCells (chequear_datos t hoy),
    dupPairs (chequear_datos t hoy))

/-! ## Cleaner (`datos_procesados`) -/

/-- `drop_duplicates()` keeping the first of each group of rows that are
equal across all columns (pandas treats NaN cells as equal here). -/
def dedupAux (seen : List Row) : List Row → List Row
  | [] => []
  | r :: rest =>
      if r ∈ seen then dedupAux seen rest
      else r :: dedupAux (r :: seen) rest

/-- `datos_procesados`: drop rows with missing new_cases or
people_vaccinated, drop exact duplicates, keep only Ecuador and
Argentina, project to the five report columns (the row type already is
that projection). -/
def datos_procesados (t : List Row) : List Row :=
  let t1 := t.filter (fun r => !r.new_cases.isNan && !r.people_vaccinated.isNan)
  let t2 := dedupAux [] t1
  t2.filter (fun r => r.country == some "Ecuador" || r.country == some "Argentina")

/-! ## Metric Engine -/

/-- Trailing window of width 7 ending at the last element of the list. -/
def trailing7 (l : List FVal) : List FVal := l.drop (l.length - 7)

/-- `rolling(7, min_periods=1).mean()` at the end of a group prefix:
mean of the non-NaN values of the trailing 7-row window, NaN when the
window holds no observation. -/
def statMean (g : List FVal) : FVal :=
  let vs := (trailing7 g).filter (fun v => !v.isNan)
  if vs.isEmpty then .nan else fdiv (fsum vs) (.fin vs.length)

/-- `rolling(7, min_periods=7).sum()` at the end of a group prefix:
sum of the trailing 7-row window, NaN unless it holds 7 observations. -/
def statSum (g : List FVal) : FVal :=
  let vs := (trailing7 g).filter (fun v => !v.isNan)
  if 7 ≤ vs.length then fsum vs else .nan

/-- `shift(7)` at the end of a group prefix: the value 7 group positions
earlier, NaN for the first 7 rows of the group. -/
def statShift (g : List FVal) : FVal :=
  if 8 ≤ g.length then g.getD (g.length - 8) .nan else .nan

/-- `df.groupby("country")[col].transform(f)`: for each row, the value of
`f` at that row's position within the subframe of rows sharing its
country (in original row order — groupby does not sort by date); rows
with a missing country key are excluded from every group and get NaN.
`seen` is the already traversed prefix of the frame. -/
def groupApply {α : Type} (key : α → Option String) (val : α → FVal)
    (stat : List FVal → FVal) : List α → List α → List FVal
  | _, [] => []
  | seen, x :: xs =>
      (match key x with
        | none => FVal.nan
        | some c => stat (((seen ++ [x]).filter (fun y => key y == some c)).map val))
      :: groupApply key val stat (seen ++ [x]) xs

/-- `incidencia_diaria` of one row: `new_cases / population * 100000`. -/
def diarVal (r : Row) : FVal := fmul (fdiv r.new_cases r.population) (.fin 100000)

/-- The frame as mutated in place by `metrica_incidencia_7d`: original
row (with the date column re-coerced) plus the two added columns
incidencia_diaria and incidencia_7d.  The op's `pd.to_datetime` call has
no `errors="coerce"`, so it is the identity on the already coerced frames
the pipeline feeds it (on a frame still holding an unparsable date string
the real call would raise; such frames never reach this op). -/
def incState (t : List Row) : List (Row × FVal × FVal) :=
  let t1 := t.map coerceRow
  let col := groupApply (fun r => r.country) diarVal statMean [] t1
  (t1.zip col).map (fun p => (p.1, diarVal p.1, p.2))

/-- `metrica_incidencia_7d`: select date, country, incidencia_7d from the
mutated frame and rename to fecha, país, incidencia_7d. -/
def metrica_incidencia_7d (t : List Row) : List IncOut :=
  (incState t).map (fun p => ⟨p.1.date, p.1.country, p.2.2⟩)

/-- The frame as mutated in place by `metrica_factor_crec_7d`: original
row plus the added columns casos_semana_actual, casos_semana_prev and
factor_crec_7d. -/
def growState (t : List Row) : List (Row × FVal × FVal × FVal) :=
  let t1 := t.map coerceRow
  let cs := groupApply (fun r => r.country) (fun r => r.new_cases) statSum [] t1
  let t2 := t1.zip cs
  let prev := groupApply (fun p => p.1.country) (fun p => p.2) statShift [] t2
  (t2.zip prev).map (fun p => (p.1.1, p.1.2, p.2, fdiv p.1.2 p.2))

/-- `metrica_factor_crec_7d`: select date, country, casos_semana_actual,
factor_crec_7d from the mutated frame and rename. -/
def metrica_factor_crec_7d (t : List Row) : List GrowthOut :=
  (growState t).map (fun p => ⟨p.1.date, p.1.country, p.2.1, p.2.2.2⟩)

/-! ## Metric Validator (`chequeo_incidencia`) -/

/-- `Series.min()`: minimum of the non-NaN values, NaN when there are
none (in particular on an empty series). -/
def seriesMin (l : List FVal) : FVal :=
  match l.filter (fun v => !v.isNan) with
  | [] => .nan
  | v :: rest => rest.foldl (fun a b => if fle b a then b else a) v

/-- `Series.max()`: maximum of the non-NaN values, NaN when there are
none. -/
def seriesMax (l : List FVal) : FVal :=
  match l.filter (fun v => !v.isNan) with
  | [] => .nan
  | v :: rest => rest.foldl (fun a b => if fle a b then b else a) v

/-- The diagnostic message `chequeo_incidencia` prints (it returns
nothing and touches no row). -/
inductive ChequeoMsg where
  | enRango (mn mx : FVal) : ChequeoMsg
  | fueraRango (mn mx : FVal) : ChequeoMsg
deriving DecidableEq, Repr

/-- `chequeo_incidencia`: Python's chained `0 <= v <= 2000` on floats,
which is false whenever `v` is NaN. -/
def chequeo_incidencia (inc : List IncOut) : ChequeoMsg :=
  let mn := seriesMin (inc.map (fun o => o.incidencia_7d))
  let mx := seriesMax (inc.map (fun o => o.incidencia_7d))
  if fle (.fin 0) mn && fle mn (.fin 2000) && fle (.fin 0) mx && fle mx (.fin 2000) then
    .enRango mn mx
  else
    .fueraRango mn mx

/-! ## Report Sink (`reporte_excel_covid`) and the job -/

/-- The produced artifact: one workbook with the three named sheets. -/
structure Artifact where
  datos : List Row
  incidencia : List IncOut
  factor : List GrowthOut
deriving DecidableEq, Repr

def reporte_excel_covid (dfProc : List Row) (inc : List IncOut)
    (fc : List GrowthOut) : Artifact :=
  ⟨dfProc, inc, fc⟩

/-- Sheet names of the artifact paired with their row counts (a sheet
with count 0 is written header-only by `to_excel`). -/
def Artifact.hojas (a : Artifact) : List (String × Nat) :=
  [("datos_procesados", a.datos.length),
    ("incidencia_7d", a.incidencia.length),
    ("factor_crec_7d", a.factor.length)]

/-- The job graph `pipeline_covid` downstream of the reader, on a raw
frame that carries the observation columns, with the ambient
`datetime.today()` passed explicitly.  Dagster's default IO manager
pickles each op output to disk and reloads it for every consumer, so
each stage receives the producing op's returned value (value
semantics).  The validator's message is part of the result.  (The
post-Reader pipeline on the reader's actual output, which may be the
column-less frame, is `pipeline_covid_frame`.) -/
def pipeline_covid (raw : List Row) (hoy : Nat) : Artifact × ChequeoMsg :=
  let dfCheck := chequear_datos raw hoy
  let dfProc := datos_procesados dfCheck
  let inc := metrica_incidencia_7d dfProc
  let fc := metrica_factor_crec_7d dfProc
  (reporte_excel_covid dfProc inc fc, chequeo_incidencia inc)

/-- The post-Reader pipeline on the reader's actual output frame: the
Quality Gate runs first and its uncaught `KeyError` on the column-less
frame aborts the whole run; on a frame with columns the remaining stages
are total and the artifact is produced. -/
def pipeline_covid_frame (f : Frame) (hoy : Nat) :
    Except GateErr (Artifact × ChequeoMsg) :=
  match chequear_datos_frame f hoy with
  | .error e => .error e
  | .ok dfCheck =>
      let dfProc := datos_procesados dfCheck
      let inc := metrica_incidencia_7d dfProc
      let fc := metrica_factor_crec_7d dfProc
      .ok (reporte_excel_covid dfProc inc fc, chequeo_incidencia inc)

/-! ## Specification-side descriptions used to state the claims -/

/-- Per-group run of a rolling statistic, written as the spec describes
it: walk the group's rows in order, extending the prefix of already seen
column values, and attach to each row the statistic of the extended
prefix. -/
def groupRun {α : Type} (stat : List FVal → FVal) (val : α → FVal) :
    List FVal → List α → List (α × FVal)
  | _, [] => []
  | p, x :: xs => (x, stat (p ++ [val x])) :: groupRun stat val (p ++ [val x]) xs

/-- Value lists of a per-group run. -/
def winList (stat : List FVal → FVal) : List FVal → List FVal → List FVal
  | _, [] => []
  | p, v :: vs => stat (p ++ [v]) :: winList stat (p ++ [v]) vs

/-- Sum of the trailing ≤7-element window ending at position `j` of a
rational series. -/
def weekSum (qs : List ℚ) (j : Nat) : ℚ :=
  (((qs.take (j + 1)).drop (j + 1 - 7))).sum

/-- Incidence value attached to a given date in a derived sheet (first
matching row). -/
def incAt (out : List IncOut) (d : DateVal) : Option FVal :=
  (out.find? (fun o => o.fecha == d)).map (fun o => o.incidencia_7d)

/-! ## Lemmas about the grouped rolling machinery -/

theorem groupApply_length {α : Type} (key : α → Option String) (val : α → FVal)
    (stat : List FVal → FVal) (t : List α) :
    ∀ seen, (groupApply key val stat seen t).length = t.length := by
  induction t with
  | nil => intro seen; rfl
  | cons x xs ih => intro seen; simp [groupApply, ih]

/-- Gather lemma: the (row, transform value) pairs of the rows whose key is
`some c` are exactly the per-group run over the subframe of those rows. -/
theorem groupApply_zip_filter {α : Type} (key : α → Option String) (val : α → FVal)
    (stat : List FVal → FVal) (c : String) (t : List α) :
    ∀ seen : List α,
      (t.zip (groupApply key val stat seen t)).filter (fun p => key p.1 == some c)
        = groupRun stat val ((seen.filter (fun y => key y == some c)).map val)
            (t.filter (fun y => key y == some c)) := by
  induction t with
  | nil => intro seen; rfl
  | cons x xs ih =>
      intro seen
      by_cases h : key x = some c
      · have hfl : (seen ++ [x]).filter (fun y => key y == some c)
            = seen.filter (fun y => key y == some c) ++ [x] := by
          rw [List.filter_append]; simp [h]
        simp only [groupApply, List.zip_cons_cons, List.filter_cons, h,
          beq_self_eq_true, if_true, groupRun, ih (seen ++ [x]), hfl,
          List.map_append, List.map_cons, List.map_nil]
      · have hb : (key x == some c) = false := by simp [h]
        have hfl : (seen ++ [x]).filter (fun y => key y == some c)
            = seen.filter (fun y => key y == some c) := by
          rw [List.filter_append]; simp [hb]
        simp only [groupApply, List.zip_cons_cons, List.filter_cons, hb,
          Bool.false_eq_true, if_false, ih (seen ++ [x]), hfl]

theorem groupRun_length {α : Type} (stat : List FVal → FVal) (val : α → FVal)
    (l : List α) : ∀ p, (groupRun stat val p l).length = l.length := by
  induction l with
  | nil => intro p; rfl
  | cons x xs ih => intro p; simp [groupRun, ih]

theorem groupRun_map_snd {α : Type} (stat : List FVal → FVal) (val : α → FVal)
    (l : List α) :
    ∀ p, (groupRun stat val p l).map (fun x => x.2) = winList stat p (l.map val) := by
  induction l with
  | nil => intro p; rfl
  | cons x xs ih => intro p; simp [groupRun, winList, ih]

theorem winList_length (stat : List FVal → FVal) (vs : List FVal) :
    ∀ p, (winList stat p vs).length = vs.length := by
  induction vs with
  | nil => intro p; rfl
  | cons v vs ih => intro p; simp [winList, ih]

theorem winList_getD (stat : List FVal → FVal) (vs : List FVal) (d : FVal) :
    ∀ (p : List FVal) (j : Nat), j < vs.length →
      (winList stat p vs).getD j d = stat (p ++ vs.take (j + 1)) := by
  induction vs with
  | nil => intro p j h; simp at h
  | cons v vs ih =>
      intro p j h
      cases j with
      | zero => simp [winList]
      | succ j =>
          simp only [winList, List.getD_cons_succ]
          rw [ih (p ++ [v]) j (by simpa using h)]
          simp

theorem groupRun_getD {α : Type} (stat : List FVal → FVal) (val : α → FVal)
    (l : List α) (dA : α) (dV : FVal) :
    ∀ (p : List FVal) (j : Nat), j < l.length →
      (groupRun stat val p l).getD j (dA, dV)
        = (l.getD j dA, stat (p ++ (l.take (j + 1)).map val)) := by
  induction l with
  | nil => intro p j h; simp at h
  | cons x xs ih =>
      intro p j h
      cases j with
      | zero => simp [groupRun]
      | succ j =>
          simp only [groupRun, List.getD_cons_succ]
          rw [ih (p ++ [val x]) j (by simpa using h)]
          simp

/-- Rows of the cleaned table belonging to one entity, in original row
order, with the metric ops' date re-coercion applied. -/
def entidadFilas (t : List Row) (c : String) : List Row :=
  (t.map coerceRow).filter (fun r => r.country == some c)

/-- Incidence output rows attached to one entity. -/
def incFilas (t : List Row) (c : String) : List IncOut :=
  (metrica_incidencia_7d t).filter (fun o => o.pais == some c)

/-- Growth output rows attached to one entity. -/
def factorFilas (t : List Row) (c : String) : List GrowthOut :=
  (metrica_factor_crec_7d t).filter (fun o => o.pais == some c)

/-- Characterization of the incidence derivation: the rows attached to an
entity are a per-group run of the trailing-7 mean over that entity's rows
in original order. -/
theorem inc_char (t : List Row) (c : String) :
    incFilas t c
      = (groupRun statMean diarVal [] (entidadFilas t c)).map
          (fun p => (⟨p.1.date, p.1.country, p.2⟩ : IncOut)) := by
  unfold incFilas metrica_incidencia_7d incState entidadFilas
  rw [List.map_map, List.filter_map]
  have hz := groupApply_zip_filter (fun r : Row => r.country) diarVal statMean c
    (t.map coerceRow) []
  simp only [List.filter_nil, List.map_nil] at hz
  have hpred : ((fun o : IncOut => o.pais == some c) ∘
      ((fun p : Row × FVal × FVal => (⟨p.1.date, p.1.country, p.2.2⟩ : IncOut)) ∘
        (fun p : Row × FVal => (p.1, diarVal p.1, p.2))))
      = (fun p : Row × FVal => p.1.country == some c) := rfl
  rw [hpred, hz]
  rfl

/-- Characterization of the growth derivation: the rows attached to an
entity are a per-group run of the 7-shift over a per-group run of the
trailing-7 sum over that entity's rows in original order. -/
theorem grow_char (t : List Row) (c : String) :
    factorFilas t c
      = (groupRun statShift (fun p => p.2) []
            (groupRun statSum (fun r => r.new_cases) [] (entidadFilas t c))).map
          (fun p => (⟨p.1.1.date, p.1.1.country, p.1.2, fdiv p.1.2 p.2⟩ : GrowthOut)) := by
  unfold factorFilas metrica_factor_crec_7d growState entidadFilas
  rw [List.map_map, List.filter_map]
  have hz2 := groupApply_zip_filter (fun p : Row × FVal => p.1.country) (fun p => p.2)
    statShift c
    ((t.map coerceRow).zip
      (groupApply (fun r : Row => r.country) (fun r => r.new_cases) statSum []
        (t.map coerceRow))) []
  simp only [List.filter_nil, List.map_nil] at hz2
  have hz1 := groupApply_zip_filter (fun r : Row => r.country) (fun r => r.new_cases)
    statSum c (t.map coerceRow) []
  simp only [List.filter_nil, List.map_nil] at hz1
  have hpred : ((fun o : GrowthOut => o.pais == some c) ∘
      ((fun p : Row × FVal × FVal × FVal => (⟨p.1.date, p.1.country, p.2.1, p.2.2.2⟩ : GrowthOut)) ∘
        (fun p : (Row × FVal) × FVal => (p.1.1, p.1.2, p.2, fdiv p.1.2 p.2))))
      = (fun p : (Row × FVal) × FVal => p.1.1.country == some c) := rfl
  rw [hpred, hz2, hz1]
  rfl

/-! ## Evaluation lemmas for the rolling statistics -/

theorem fsum_map_fin (qs : List ℚ) : fsum (qs.map FVal.fin) = .fin qs.sum := by
  induction qs with
  | nil => rfl
  | cons q qs ih => simp [fsum, fadd, List.foldr] at ih ⊢; rw [ih]

theorem filter_nan_map_fin (qs : List ℚ) :
    (qs.map FVal.fin).filter (fun v => !v.isNan) = qs.map FVal.fin := by
  rw [List.filter_eq_self]
  intro v hv
  rcases List.mem_map.1 hv with ⟨q, _, rfl⟩
  rfl

theorem trailing7_map_fin (qs : List ℚ) :
    trailing7 (qs.map FVal.fin) = (qs.drop (qs.length - 7)).map FVal.fin := by
  simp [trailing7, List.map_drop]

theorem statSum_fins (qs : List ℚ) :
    statSum (qs.map FVal.fin)
      = if 7 ≤ qs.length then .fin ((qs.drop (qs.length - 7)).sum) else .nan := by
  have hlen : (qs.drop (qs.length - 7)).length = qs.length - (qs.length - 7) := by
    simp
  simp only [statSum, trailing7_map_fin, filter_nan_map_fin, fsum_map_fin,
    List.length_map, hlen]
  by_cases h : 7 ≤ qs.length
  · rw [if_pos (by omega), if_pos h]
  · rw [if_neg (by omega), if_neg h]

theorem statSum_take_fins (qs : List ℚ) (j : Nat) (h : j < qs.length) :
    statSum ((qs.map FVal.fin).take (j + 1))
      = if j < 6 then FVal.nan else .fin (weekSum qs j) := by
  rw [← List.map_take]
  rw [statSum_fins (qs.take (j + 1))]
  have hlen : (qs.take (j + 1)).length = j + 1 := by
    simp; omega
  rw [hlen]
  by_cases hj : j < 6
  · rw [if_neg (by omega), if_pos hj]
  · rw [if_pos (by omega), if_neg hj]
    rfl

theorem statShift_take (vs : List FVal) (j : Nat) (h : j < vs.length) :
    statShift (vs.take (j + 1))
      = if j < 7 then FVal.nan else vs.getD (j - 7) .nan := by
  have hlen : (vs.take (j + 1)).length = j + 1 := by simp; omega
  simp only [statShift, hlen]
  by_cases hj : j < 7
  · rw [if_neg (by omega), if_pos hj]
  · rw [if_pos (by omega), if_neg hj]
    have : j + 1 - 8 = j - 7 := by omega
    rw [this]
    rw [List.getD_eq_getElem?_getD, List.getD_eq_getElem?_getD,
      List.getElem?_take]
    rw [if_pos (by omega)]

theorem fsum_allFin (l : List FVal) (hall : ∀ v ∈ l, ∃ q, v = FVal.fin q) :
    ∃ q, fsum l = .fin q := by
  induction l with
  | nil => exact ⟨0, rfl⟩
  | cons v vs ih =>
      rcases hall v (by simp) with ⟨q, rfl⟩
      rcases ih (fun w hw => hall w (by simp [hw])) with ⟨s, hs⟩
      refine ⟨q + s, ?_⟩
      simp [fsum, List.foldr] at hs ⊢
      rw [hs]
      rfl

theorem mem_trailing7_concat (l : List FVal) (v : FVal) : v ∈ trailing7 (l ++ [v]) := by
  unfold trailing7
  rw [List.drop_append_of_le_length (by simp)]
  simp

theorem statMean_fin (g : List FVal)
    (hall : ∀ v ∈ g, v = FVal.nan ∨ ∃ q, v = FVal.fin q)
    (hmem : ∃ q, FVal.fin q ∈ trailing7 g) :
    ∃ q, statMean g = .fin q := by
  rcases hmem with ⟨q0, hq0⟩
  have hsub : ∀ v ∈ trailing7 g, v = FVal.nan ∨ ∃ q, v = FVal.fin q := by
    intro v hv
    exact hall v (List.mem_of_mem_drop hv)
  set vs := (trailing7 g).filter (fun v => !v.isNan) with hvs
  have hvfin : ∀ v ∈ vs, ∃ q, v = FVal.fin q := by
    intro v hv
    rw [hvs] at hv
    rcases List.mem_filter.1 hv with ⟨hv1, hv2⟩
    rcases hsub v hv1 with h | h
    · subst h; simp [FVal.isNan] at hv2
    · exact h
  have hne : FVal.fin q0 ∈ vs := by
    rw [hvs]
    exact List.mem_filter.2 ⟨hq0, by simp [FVal.isNan]⟩
  have hlen : vs.length ≠ 0 := by
    intro hc
    rw [List.length_eq_zero] at hc
    rw [hc] at hne
    simp at hne
  rcases fsum_allFin vs hvfin with ⟨s, hs⟩
  refine ⟨s / vs.length, ?_⟩
  simp only [statMean]
  rw [← hvs]
  rw [if_neg (by simp [List.isEmpty_iff]; intro hc; rw [hc] at hne; simp at hne)]
  rw [hs]
  simp only [fdiv]
  rw [if_neg (by exact_mod_cast hlen)]

/-! ## Row-level predicates for the incidence claims -/

/-- Data-model check for a row, as §3 of the design states it: `new_cases`
is never an infinity and `population` is a positive number (or absent). -/
def rowModelo (r : Row) : Bool :=
  (match r.new_cases with
    | .inf => false
    | .ninf => false
    | _ => true) &&
  (match r.population with
    | .nan => true
    | .fin p => decide (0 < p)
    | _ => false)

def tablaModelo (t : List Row) : Bool := t.all rowModelo

/-- Population cell holding a finite positive number. -/
def popPos : FVal → Bool
  | .fin p => decide (0 < p)
  | _ => false

theorem diar_nan_or_fin (r : Row) (h : rowModelo r = true) :
    diarVal r = FVal.nan ∨ ∃ q, diarVal r = FVal.fin q := by
  unfold rowModelo at h
  rw [Bool.and_eq_true] at h
  rcases hnc : r.new_cases with _ | _ | _ | a
  · left; simp [diarVal, hnc, fdiv, fmul]
  · rw [hnc] at h; simp at h
  · rw [hnc] at h; simp at h
  · rcases hp : r.population with _ | _ | _ | p
    · left; simp [diarVal, hnc, hp, fdiv, fmul]
    · rw [hp] at h; simp at h
    · rw [hp] at h; simp at h
    · rw [hp] at h
      have hppos : 0 < p := by simpa using h.2
      right
      refine ⟨a / p * 100000, ?_⟩
      simp [diarVal, hnc, hp, fdiv, fmul, ne_of_gt hppos]

theorem diar_fin (r : Row) (hc : FVal.isFin r.new_cases = true)
    (hp : popPos r.population = true) : ∃ q, diarVal r = FVal.fin q := by
  rcases hnc : r.new_cases with _ | _ | _ | a <;> rw [hnc] at hc <;>
    simp [FVal.isFin] at hc
  rcases hpp : r.population with _ | _ | _ | p <;> rw [hpp] at hp <;>
    simp [popPos] at hp
  exact ⟨a / p * 100000, by simp [diarVal, hnc, hpp, fdiv, fmul, ne_of_gt hp]⟩

/-- Core of the incidence-completeness claim: in a data-model-conforming
frame, the transform value paired with any row that has a country, finite
new_cases and positive population is finite. -/
theorem inc_zip_fin (t : List Row) : ∀ (seen : List Row),
    tablaModelo (seen ++ t) = true →
    ∀ z ∈ t.zip (groupApply (fun r : Row => r.country) diarVal statMean seen t),
      z.1.country.isSome = true →
      FVal.isFin z.1.new_cases = true →
      popPos z.1.population = true →
      FVal.isFin z.2 = true := by
  induction t with
  | nil => intro seen hmod z hz; simp [groupApply] at hz
  | cons x xs ih =>
      intro seen hmod z hz hc hnc hp
      simp only [groupApply, List.zip_cons_cons, List.mem_cons] at hz
      rcases hz with hz | hz
      · subst hz
        rcases hcc : x.country with _ | c
        · simp [hcc] at hc
        · simp only [hcc]
          have hfl : (seen ++ [x]).filter (fun y => y.country == some c)
              = seen.filter (fun y => y.country == some c) ++ [x] := by
            rw [List.filter_append]; simp [hcc]
          rw [hfl, List.map_append, List.map_cons, List.map_nil]
          obtain ⟨qx, hqx⟩ := diar_fin x hnc hp
          have hall : ∀ v ∈ (seen.filter (fun y => y.country == some c)).map diarVal
              ++ [diarVal x], v = FVal.nan ∨ ∃ q, v = FVal.fin q := by
            intro v hv
            rcases List.mem_append.1 hv with hv | hv
            · rcases List.mem_map.1 hv with ⟨y, hy, rfl⟩
              apply diar_nan_or_fin
              have hy2 : y ∈ seen := List.mem_of_mem_filter hy
              have hmod2 := hmod
              simp only [tablaModelo, List.all_eq_true] at hmod2
              exact hmod2 y (List.mem_append_left _ hy2)
            · simp at hv; subst hv; right; exact ⟨qx, hqx⟩
          have hmem : ∃ q, FVal.fin q ∈
              trailing7 ((seen.filter (fun y => y.country == some c)).map diarVal
                ++ [diarVal x]) := by
            refine ⟨qx, ?_⟩
            rw [hqx]
            exact mem_trailing7_concat _ _
          rcases statMean_fin _ hall hmem with ⟨q, hq⟩
          rw [hq]; rfl
      · refine ih (seen ++ [x]) ?_ z hz hc hnc hp
        rwa [show (seen ++ [x]) ++ xs = seen ++ x :: xs by simp]

/-! ## Concrete tables used in scenarios, counterexamples and witnesses -/

/-- Ecuador row of the spec's incidence scenario. -/
def filaEC (d : Nat) (c : ℚ) : Row :=
  ⟨some "Ecuador", .ts d, .fin c, .fin 1, .fin 1000000⟩

/-- The spec's two-row Ecuador scenario table, in date order. -/
def tablaEcuador : List Row := [filaEC 20240101 100, filaEC 20240102 200]

/-- The same rows with the later date first (a per-entity permutation). -/
def tablaEcuadorPerm : List Row := [filaEC 20240102 200, filaEC 20240101 100]

/-- Seven Ecuador rows in strictly decreasing date order, one case each. -/
def tablaReversa : List Row :=
  [⟨some "Ecuador", .ts 20240107, .fin 1, .fin 1, .fin 10⟩,
   ⟨some "Ecuador", .ts 20240106, .fin 1, .fin 1, .fin 10⟩,
   ⟨some "Ecuador", .ts 20240105, .fin 1, .fin 1, .fin 10⟩,
   ⟨some "Ecuador", .ts 20240104, .fin 1, .fin 1, .fin 10⟩,
   ⟨some "Ecuador", .ts 20240103, .fin 1, .fin 1, .fin 10⟩,
   ⟨some "Ecuador", .ts 20240102, .fin 1, .fin 1, .fin 10⟩,
   ⟨some "Ecuador", .ts 20240101, .fin 1, .fin 1, .fin 10⟩]

/-- One Argentina row. -/
def filaAR (d : Nat) (c : ℚ) : Row :=
  ⟨some "Argentina", .ts d, .fin c, .fin 1, .fin 1000000⟩

/-- A row whose raw date string does not parse. -/
def filaBanana : Row := ⟨some "Ecuador", .str "banana", .fin 5, .fin 1, .fin 10⟩

/-- Fourteen date-ascending Ecuador rows with cases 1..14. -/
def tabla14 : List Row := (List.range 14).map (fun i => filaEC (20240101 + i) (1 + i))

/-! ## Claim theorems -/

/-- C1: the claim is right about the intended behaviour but the code
breaks it on its own error path.  Every post-Reader stage does map the
zero-row table WITH its header columns to a zero-row result without
raising, and the pipeline on that table terminates with an artifact of
three empty (header-only) sheets, the validator logging out-of-range
with NaN bounds instead of crashing.  But the empty table the Reader
actually returns on transport failure (e.g. HTTP 404) is the column-less
`pd.DataFrame()`, and on it the Quality Gate's first statement
`df["date"]` raises `KeyError('date')`, aborting the run with an
exception instead of degrading to an artifact. -/
theorem c1_tabla_vacia : ∀ hoy : Nat,
    (chequear_datos [] hoy = [] ∧
      datos_procesados [] = [] ∧
      metrica_incidencia_7d [] = [] ∧
      metrica_factor_crec_7d [] = [] ∧
      chequeo_incidencia [] = .fueraRango .nan .nan ∧
      (pipeline_covid [] hoy).1.hojas
        = [("datos_procesados", 0), ("incidencia_7d", 0), ("factor_crec_7d", 0)] ∧
      pipeline_covid_frame (Frame.tabla []) hoy
        = .ok (⟨[], [], []⟩, .fueraRango .nan .nan)) ∧
    (leer_datos (.respuesta 404 Payload.malformado) = .ok Frame.sinColumnas ∧
      chequear_datos_frame Frame.sinColumnas hoy
        = .error (GateErr.keyError "date") ∧
      pipeline_covid_frame Frame.sinColumnas hoy
        = .error (GateErr.keyError "date")) := by
  intro hoy
  exact ⟨⟨rfl, rfl, rfl, rfl, rfl, rfl, rfl⟩, rfl, rfl, rfl⟩

/-- C9 counterexample: a transport timeout does not yield an empty table
— the uncaught timeout exception escapes the reader, and a malformed 200
payload makes the CSV parser raise, refuting "for every transport outcome
the reader returns an empty table and never raises". -/
theorem c9_counterexample :
    leer_datos Transport.timeout = Except.error ReadErr.timeoutErr ∧
    leer_datos Transport.timeout ≠ Except.ok Frame.sinColumnas ∧
    leer_datos (Transport.respuesta 200 Payload.malformado)
      = Except.error ReadErr.parseErr := by
  refine ⟨rfl, ?_, rfl⟩
  intro h
  simp [leer_datos] at h

/-- C9 amended: only a completed response with non-success status makes
the reader return an empty table (the column-less `pd.DataFrame()`)
without raising; a transport timeout or a malformed payload raises
inside the reader (there is no try/except), and a well-formed 200
response returns its parsed table. -/
theorem c9_lector_fallos :
    (∀ (status : Nat) (body : Payload), status ≠ 200 →
      leer_datos (.respuesta status body) = .ok Frame.sinColumnas) ∧
    leer_datos .timeout = .error .timeoutErr ∧
    leer_datos (.respuesta 200 .malformado) = .error .parseErr ∧
    (∀ rows : List Row,
      leer_datos (.respuesta 200 (.tabla rows)) = .ok (Frame.tabla rows)) := by
  refine ⟨?_, rfl, rfl, fun rows => rfl⟩
  intro s b hs
  simp [leer_datos, hs]

theorem c9_lector_fallos_witness :
    (404 ≠ 200) ∧
    leer_datos (.respuesta 404 (.tabla tablaEcuador)) = .ok Frame.sinColumnas :=
  ⟨by decide, c9_lector_fallos.1 404 (.tabla tablaEcuador) (by decide)⟩

/-- C3 counterexample: the Quality Gate does not return a table identical
to its input — a raw date string cell is replaced by its parsed
timestamp. -/
theorem c3_counterexample :
    chequear_datos [⟨some "Ecuador", .str "2024-01-01", .fin 1, .fin 1, .fin 1⟩] 20250101
      ≠ [⟨some "Ecuador", .str "2024-01-01", .fin 1, .fin 1, .fin 1⟩] := by
  decide

/-- C3 amended: the gate never raises, never drops or adds rows, and
leaves every cell except the date column unchanged; the date cell becomes
its `to_datetime` coercion (unparsable strings become the missing
sentinel).  Its other effect is only the logged alerts. -/
theorem c3_gate_coercion (t : List Row) (hoy i : Nat) (hi : i < t.length) :
    (chequear_datos t hoy).length = t.length ∧
    ((chequear_datos t hoy).getD i default).country = (t.getD i default).country ∧
    ((chequear_datos t hoy).getD i default).new_cases = (t.getD i default).new_cases ∧
    ((chequear_datos t hoy).getD i default).people_vaccinated
      = (t.getD i default).people_vaccinated ∧
    ((chequear_datos t hoy).getD i default).population = (t.getD i default).population ∧
    ((chequear_datos t hoy).getD i default).date = coerceDate (t.getD i default).date := by
  have hlen : (chequear_datos t hoy).length = t.length := by simp [chequear_datos]
  have hg : (chequear_datos t hoy).getD i default = coerceRow (t.getD i default) := by
    rw [List.getD_eq_getElem _ _ (by rw [hlen]; exact hi), List.getD_eq_getElem _ _ hi]
    simp [chequear_datos]
  exact ⟨hlen, by rw [hg]; rfl, by rw [hg]; rfl, by rw [hg]; rfl, by rw [hg]; rfl,
    by rw [hg]; rfl⟩

theorem c3_gate_coercion_witness :
    (0 < tablaEcuador.length) ∧
    ((chequear_datos tablaEcuador 20250101).getD 0 default).date
      = coerceDate ((tablaEcuador.getD 0 default).date) :=
  ⟨by decide, (c3_gate_coercion tablaEcuador 20250101 0 (by decide)).2.2.2.2.2⟩

/-- C10: a raw date cell that fails to parse is coerced to the missing
sentinel: the row stays in place in the gate output with a NaT date, a
NaT date can never trigger the future-date alert, it contributes to the
null-key total over country, date, population, and (when the row's other
fields survive cleaning) the missing date propagates downstream. -/
theorem c10_fecha_invalida (s : String) (hs : parseISO s = none) (r : Row)
    (hr : r.date = .str s) (hoy : Nat) (t1 t2 : List Row) :
    chequear_datos (t1 ++ r :: t2) hoy
      = chequear_datos t1 hoy
        ++ ({ r with date := DateVal.na } :: chequear_datos t2 hoy) ∧
    isFuture (coerceDate r.date) hoy = false ∧
    1 ≤ rowNulls { r with date := DateVal.na } ∧
    nullKeyCells (chequear_datos (t1 ++ r :: t2) hoy)
      = nullKeyCells (chequear_datos t1 hoy) + rowNulls { r with date := DateVal.na }
        + nullKeyCells (chequear_datos t2 hoy) ∧
    (r.new_cases.isNan = false → r.people_vaccinated.isNan = false →
      r.country = some "Ecuador" →
      datos_procesados [{ r with date := DateVal.na }]
        = [{ r with date := DateVal.na }]) := by
  have hcr : coerceRow r = { r with date := DateVal.na } := by
    simp [coerceRow, hr, coerceDate, hs]
  refine ⟨?_, ?_, ?_, ?_, ?_⟩
  · simp [chequear_datos, hcr]
  · rw [hr]; simp [coerceDate, hs, isFuture]
  · simp only [rowNulls]
    simp
    omega
  · simp only [chequear_datos, nullKeyCells, List.map_append, List.map_cons,
      List.sum_append, List.sum_cons, hcr]
    omega
  · intro h1 h2 h3
    simp [datos_procesados, h1, h2, h3, dedupAux]

theorem c10_fecha_invalida_witness :
    parseISO "banana" = none ∧ filaBanana.date = .str "banana" ∧
    chequear_datos [filaBanana] 20250101 = [{ filaBanana with date := DateVal.na }] := by
  refine ⟨by decide, rfl, ?_⟩
  have h := (c10_fecha_invalida "banana" (by decide) filaBanana rfl 20250101 [] []).1
  simpa using h

/-- Finite values inside the validator's bounds are exactly the ones the
chained float comparison accepts. -/
theorem fle_bounds (v : FVal) (h1 : fle (.fin 0) v = true)
    (h2 : fle v (.fin 2000) = true) : ∃ a : ℚ, v = .fin a ∧ 0 ≤ a ∧ a ≤ 2000 := by
  rcases v with _ | _ | _ | a
  · simp [fle] at h1
  · simp [fle] at h2
  · simp [fle] at h1
  · exact ⟨a, rfl, by simpa [fle] using h1, by simpa [fle] using h2⟩

/-- C8: the validator only computes a log message (no error, no row is
touched); it always logs either the in-range or the out-of-range message
with the observed NaN-skipping min and max, it logs "in range" exactly
when both min and max are finite values within [0, 2000], and the empty
table yields the out-of-range message with NaN bounds instead of
crashing. -/
theorem c8_validador_rango (inc : List IncOut) :
    (chequeo_incidencia inc
        = .enRango (seriesMin (inc.map (fun o => o.incidencia_7d)))
            (seriesMax (inc.map (fun o => o.incidencia_7d)))
      ∨ chequeo_incidencia inc
        = .fueraRango (seriesMin (inc.map (fun o => o.incidencia_7d)))
            (seriesMax (inc.map (fun o => o.incidencia_7d)))) ∧
    ((∃ mn mx, chequeo_incidencia inc = .enRango mn mx) ↔
      (∃ a b : ℚ, seriesMin (inc.map (fun o => o.incidencia_7d)) = .fin a ∧
        seriesMax (inc.map (fun o => o.incidencia_7d)) = .fin b ∧
        0 ≤ a ∧ a ≤ 2000 ∧ 0 ≤ b ∧ b ≤ 2000)) ∧
    chequeo_incidencia [] = .fueraRango .nan .nan := by
  refine ⟨?_, ?_, rfl⟩
  · simp only [chequeo_incidencia]
    by_cases hcond : (fle (.fin 0) (seriesMin (inc.map (fun o => o.incidencia_7d)))
        && fle (seriesMin (inc.map (fun o => o.incidencia_7d))) (.fin 2000)
        && fle (.fin 0) (seriesMax (inc.map (fun o => o.incidencia_7d)))
        && fle (seriesMax (inc.map (fun o => o.incidencia_7d))) (.fin 2000)) = true
    · left; rw [if_pos hcond]
    · right; rw [if_neg hcond]
  · simp only [chequeo_incidencia]
    by_cases hcond : (fle (.fin 0) (seriesMin (inc.map (fun o => o.incidencia_7d)))
        && fle (seriesMin (inc.map (fun o => o.incidencia_7d))) (.fin 2000)
        && fle (.fin 0) (seriesMax (inc.map (fun o => o.incidencia_7d)))
        && fle (seriesMax (inc.map (fun o => o.incidencia_7d))) (.fin 2000)) = true
    · rw [if_pos hcond]
      simp only [Bool.and_eq_true] at hcond
      obtain ⟨⟨⟨ha1, ha2⟩, hb1⟩, hb2⟩ := hcond
      obtain ⟨a, hva, ha0, ha2000⟩ := fle_bounds _ ha1 ha2
      obtain ⟨b, hvb, hb0, hb2000⟩ := fle_bounds _ hb1 hb2
      constructor
      · intro _; exact ⟨a, b, hva, hvb, ha0, ha2000, hb0, hb2000⟩
      · intro _; exact ⟨_, _, rfl⟩
    · rw [if_neg hcond]
      constructor
      · rintro ⟨mn, mx, h⟩; cases h
      · rintro ⟨a, b, hva, hvb, ha0, ha2000, hb0, hb2000⟩
        exfalso
        apply hcond
        rw [hva, hvb]
        simp only [fle, Bool.and_eq_true, decide_eq_true_eq]
        exact ⟨⟨⟨ha0, ha2000⟩, hb0⟩, hb2000⟩

set_option maxRecDepth 2000

/-- C2 counterexample: swapping the order of the two Ecuador scenario
rows (a per-entity permutation) changes the incidence value attached to
the (Ecuador, 2024-01-01) pair — 15 instead of 10 — because the rolling
window runs over the rows in input order, not in date order. -/
theorem c2_counterexample :
    incAt (metrica_incidencia_7d tablaEcuadorPerm) (.ts 20240101)
      ≠ incAt (metrica_incidencia_7d tablaEcuador) (.ts 20240101) := by
  have hne : (DateVal.ts 20240102 == DateVal.ts 20240101) = false := by decide
  have he : (DateVal.ts 20240101 == DateVal.ts 20240101) = true := by decide
  have h1 : incAt (metrica_incidencia_7d tablaEcuadorPerm) (.ts 20240101)
      = some (.fin 15) := by
    norm_num [incAt, metrica_incidencia_7d, incState, tablaEcuadorPerm, filaEC,
      coerceRow, coerceDate, groupApply, diarVal, fdiv, fmul, statMean, trailing7,
      fsum, FVal.isNan, List.find?, List.filter, fadd, hne, he]
  have h2 : incAt (metrica_incidencia_7d tablaEcuador) (.ts 20240101)
      = some (.fin 10) := by
    norm_num [incAt, metrica_incidencia_7d, incState, tablaEcuador, filaEC,
      coerceRow, coerceDate, groupApply, diarVal, fdiv, fmul, statMean, trailing7,
      fsum, FVal.isNan, List.find?, List.filter, fadd, hne, he]
  rw [h1, h2]
  intro hcontra
  norm_num at hcontra

/-- C2 amended: each derivation computes its rolling and lag windows over
each entity's rows in their original table order (groupby preserves
encounter order and nothing sorts by date), so the values attached to
(entity, date) pairs agree with the date-sorted semantics only when each
entity's rows already appear in date-ascending order. -/
theorem c2_ventanas_orden_original (t : List Row) (c : String) :
    incFilas t c
      = (groupRun statMean diarVal [] (entidadFilas t c)).map
          (fun p => (⟨p.1.date, p.1.country, p.2⟩ : IncOut)) ∧
    factorFilas t c
      = (groupRun statShift (fun p => p.2) []
            (groupRun statSum (fun r => r.new_cases) [] (entidadFilas t c))).map
          (fun p => (⟨p.1.1.date, p.1.1.country, p.1.2, fdiv p.1.2 p.2⟩ : GrowthOut)) :=
  ⟨inc_char t c, grow_char t c⟩

/-- C6: the derived incidence and growth rows attached to an entity
depend only on that entity's subsequence of the cleaned table, so
permuting or deleting another entity's rows never changes them. -/
theorem c6_aislamiento_entidades (t u : List Row) (c : String)
    (h : t.filter (fun r => r.country == some c)
      = u.filter (fun r => r.country == some c)) :
    incFilas t c = incFilas u c ∧ factorFilas t c = factorFilas u c := by
  have hcomm : ∀ v : List Row, (v.map coerceRow).filter (fun r => r.country == some c)
      = (v.filter (fun r => r.country == some c)).map coerceRow := by
    intro v
    rw [List.filter_map]
    rfl
  have hent : entidadFilas t c = entidadFilas u c := by
    unfold entidadFilas
    rw [hcomm, hcomm, h]
  exact ⟨by rw [inc_char, inc_char, hent], by rw [grow_char, grow_char, hent]⟩

theorem c6_aislamiento_entidades_witness :
    (tablaEcuador ++ [filaAR 20240101 7]).filter (fun r => r.country == some "Ecuador")
      = tablaEcuador.filter (fun r => r.country == some "Ecuador") ∧
    incFilas (tablaEcuador ++ [filaAR 20240101 7]) "Ecuador"
      = incFilas tablaEcuador "Ecuador" :=
  ⟨by decide,
    (c6_aislamiento_entidades (tablaEcuador ++ [filaAR 20240101 7]) tablaEcuador
      "Ecuador" (by decide)).1⟩

/-- Rows whose date cell is not an unparsed string (true of every table
the gate has already processed). -/
def sinFechasCrudas (t : List Row) : Bool := t.all (fun r => !r.date.isStr)

theorem coerceRow_id (r : Row) (h : r.date.isStr = false) : coerceRow r = r := by
  unfold coerceRow
  rcases hd : r.date with s | n
  · rw [hd] at h; simp [DateVal.isStr] at h
  · rw [show coerceDate (DateVal.ts n) = DateVal.ts n from rfl, ← hd]
  · rw [show coerceDate DateVal.na = DateVal.na from rfl, ← hd]

theorem map_coerceRow_id (t : List Row) (h : sinFechasCrudas t = true) :
    t.map coerceRow = t := by
  unfold sinFechasCrudas at h
  rw [List.all_eq_true] at h
  calc t.map coerceRow = t.map id := by
        apply List.map_congr_left
        intro r hr
        exact coerceRow_id r (by simpa using h r hr)
    _ = t := List.map_id t

/-- C7: both derivations are plain functions of the cleaned table (the
embedding is deterministic by construction), and although each op writes
its derived columns into the shared frame in place, the projection of the
mutated frame back to the original five columns is exactly the input
table — no original cell or row is touched — while the job graph hands
the Sink the Cleaner's own output. -/
theorem c7_derivaciones_puras :
    (∀ t : List Row, sinFechasCrudas t = true →
      (incState t).map (fun p => p.1) = t ∧ (growState t).map (fun p => p.1) = t) ∧
    (∀ (raw : List Row) (hoy : Nat),
      (pipeline_covid raw hoy).1.datos = datos_procesados (chequear_datos raw hoy)) := by
  constructor
  · intro t ht
    have hco : t.map coerceRow = t := map_coerceRow_id t ht
    constructor
    · simp only [incState]
      rw [List.map_map]
      show List.map Prod.fst
        ((t.map coerceRow).zip
          (groupApply (fun r : Row => r.country) diarVal statMean [] (t.map coerceRow))) = t
      rw [List.map_fst_zip _ _ (le_of_eq (groupApply_length _ _ _ _ _).symm), hco]
    · simp only [growState]
      rw [List.map_map]
      show List.map (Prod.fst ∘ Prod.fst)
        (((t.map coerceRow).zip
            (groupApply (fun r : Row => r.country) (fun r => r.new_cases) statSum []
              (t.map coerceRow))).zip
          (groupApply (fun p : Row × FVal => p.1.country) (fun p => p.2) statShift []
            ((t.map coerceRow).zip
              (groupApply (fun r : Row => r.country) (fun r => r.new_cases) statSum []
                (t.map coerceRow))))) = t
      rw [← List.map_map, List.map_fst_zip _ _ (le_of_eq (groupApply_length _ _ _ _ _).symm)]
      rw [List.map_fst_zip _ _ (le_of_eq (groupApply_length _ _ _ _ _).symm), hco]
  · intro raw hoy
    rfl

theorem c7_derivaciones_puras_witness :
    sinFechasCrudas tablaEcuador = true ∧
    (incState tablaEcuador).map (fun p => p.1) = tablaEcuador :=
  ⟨by decide, (c7_derivaciones_puras.1 tablaEcuador (by decide)).1⟩

theorem getD_map_of_lt {α β : Type} (f : α → β) (l : List α) (j : Nat)
    (hj : j < l.length) (d : β) (d0 : α) : (l.map f).getD j d = f (l.getD j d0) := by
  rw [List.getD_eq_getElem _ _ (by simpa using hj), List.getD_eq_getElem _ _ hj,
    List.getElem_map]

/-- Every `new_cases` cell of the table is a finite number (true of every
cleaner output, which drops rows with missing new_cases). -/
def todasFin (t : List Row) : Bool := t.all (fun r => r.new_cases.isFin)

/-- The `new_cases` column of a subframe, as exact rationals. -/
def casosDe (l : List Row) : List ℚ := l.map (fun r => r.new_cases.finPart)

theorem entidadFilas_fin (t : List Row) (c : String) (h : todasFin t = true) :
    (entidadFilas t c).map (fun r => r.new_cases)
      = (casosDe (entidadFilas t c)).map FVal.fin := by
  unfold casosDe
  rw [List.map_map]
  apply List.map_congr_left
  intro r hr
  have hf : FVal.isFin r.new_cases = true := by
    unfold entidadFilas at hr
    have hr2 := List.mem_of_mem_filter hr
    rcases List.mem_map.1 hr2 with ⟨r0, hr0, rfl⟩
    unfold todasFin at h
    rw [List.all_eq_true] at h
    simpa [coerceRow] using h r0 hr0
  rcases hq : r.new_cases with _ | _ | _ | q
  · rw [hq] at hf; simp [FVal.isFin] at hf
  · rw [hq] at hf; simp [FVal.isFin] at hf
  · rw [hq] at hf; simp [FVal.isFin] at hf
  · simp [Function.comp, hq, FVal.finPart]

/-- C4: on a cleaned table conforming to the data model (new_cases never
infinite, population positive or absent), every row with a country key, a
finite new_cases and a finite positive population receives a finite
incidencia_7d — the trailing mean (minimum window 1) is never null for
such rows — and on the spec's two-row Ecuador scenario the derived
values are exactly 10.0 and 15.0. -/
theorem c4_incidencia_completa :
    (∀ t : List Row, tablaModelo t = true →
      ∀ i : Nat, i < (incState t).length →
        Option.isSome ((incState t).getD i default).1.country = true →
        FVal.isFin ((incState t).getD i default).1.new_cases = true →
        popPos ((incState t).getD i default).1.population = true →
        FVal.isFin ((incState t).getD i default).2.2 = true) ∧
    metrica_incidencia_7d tablaEcuador
      = [⟨.ts 20240101, some "Ecuador", .fin 10⟩,
         ⟨.ts 20240102, some "Ecuador", .fin 15⟩] := by
  constructor
  · intro t hmod i hi hc hnc hp
    set e := (incState t).getD i default with hedef
    have he : e ∈ incState t := by
      rw [hedef, List.getD_eq_getElem _ _ hi]
      exact List.getElem_mem hi
    have hunf : incState t
        = ((t.map coerceRow).zip
            (groupApply (fun r : Row => r.country) diarVal statMean []
              (t.map coerceRow))).map (fun p => (p.1, diarVal p.1, p.2)) := rfl
    rw [hunf] at he
    obtain ⟨z, hz, hze⟩ := List.mem_map.1 he
    rw [← hze] at hc hnc hp ⊢
    have hmod2 : tablaModelo ([] ++ t.map coerceRow) = true := by
      simp only [List.nil_append]
      unfold tablaModelo at hmod ⊢
      rw [List.all_map]
      exact hmod
    exact inc_zip_fin (t.map coerceRow) [] hmod2 z hz hc hnc hp
  · norm_num [metrica_incidencia_7d, incState, tablaEcuador, filaEC, coerceRow,
      coerceDate, groupApply, diarVal, fdiv, fmul, statMean, trailing7, fsum,
      FVal.isNan, fadd]

theorem c4_incidencia_completa_witness :
    tablaModelo tablaEcuador = true ∧
    1 < (incState tablaEcuador).length ∧
    Option.isSome ((incState tablaEcuador).getD 1 default).1.country = true ∧
    FVal.isFin ((incState tablaEcuador).getD 1 default).1.new_cases = true ∧
    popPos ((incState tablaEcuador).getD 1 default).1.population = true ∧
    FVal.isFin ((incState tablaEcuador).getD 1 default).2.2 = true :=
  ⟨by decide, by decide, by decide, by decide, by decide,
    c4_incidencia_completa.1 tablaEcuador (by decide) 1 (by decide) (by decide)
      (by decide) (by decide)⟩

/-- C5 counterexample: on seven Ecuador rows in strictly decreasing date
order, `casos_semana` is NaN on the six positionally-first rows (the six
chronologically LAST dates) and is defined (7.0) on the table's last row
— which is the entity's chronologically FIRST row (2024-01-01) — so
"casos_semana is undefined on the entity's first 6 chronological rows and
defined from the 7th row onward" fails: the windows are positional, not
chronological. -/
theorem c5_counterexample :
    metrica_factor_crec_7d tablaReversa
      = [⟨.ts 20240107, some "Ecuador", .nan, .nan⟩,
         ⟨.ts 20240106, some "Ecuador", .nan, .nan⟩,
         ⟨.ts 20240105, some "Ecuador", .nan, .nan⟩,
         ⟨.ts 20240104, some "Ecuador", .nan, .nan⟩,
         ⟨.ts 20240103, some "Ecuador", .nan, .nan⟩,
         ⟨.ts 20240102, some "Ecuador", .nan, .nan⟩,
         ⟨.ts 20240101, some "Ecuador", .fin 7, .nan⟩] ∧
    ((metrica_factor_crec_7d tablaReversa).getD 6 default).semana_fin
      = .ts 20240101 ∧
    ((metrica_factor_crec_7d tablaReversa).getD 6 default).casos_semana
      = FVal.fin 7 ∧
    FVal.fin 7 ≠ FVal.nan := by
  have hb : (some "Ecuador" == some "Ecuador") = true := by decide
  have hmain : metrica_factor_crec_7d tablaReversa
      = [⟨.ts 20240107, some "Ecuador", .nan, .nan⟩,
         ⟨.ts 20240106, some "Ecuador", .nan, .nan⟩,
         ⟨.ts 20240105, some "Ecuador", .nan, .nan⟩,
         ⟨.ts 20240104, some "Ecuador", .nan, .nan⟩,
         ⟨.ts 20240103, some "Ecuador", .nan, .nan⟩,
         ⟨.ts 20240102, some "Ecuador", .nan, .nan⟩,
         ⟨.ts 20240101, some "Ecuador", .fin 7, .nan⟩] := by
    norm_num [metrica_factor_crec_7d, growState, tablaReversa, coerceRow, coerceDate,
      groupApply, statSum, statShift, trailing7, fsum, fadd, fdiv, FVal.isNan, hb]
  refine ⟨hmain, by rw [hmain]; rfl, by rw [hmain]; rfl, by decide⟩

/-- C5 amended: for a cleaned table (all new_cases finite), within each
entity's rows taken in input order, `casos_semana` is NaN on the first 6
rows and from the 7th row onward equals the trailing 7-row sum of
new_cases; `casos_semana_prev` is the value lagged 7 rows (so NaN before
the 14th row), and `factor_crec_7d` is their IEEE-style quotient —
undefined when either operand is NaN, and a zero denominator yields an
infinity or NaN, never an error. -/
theorem c5_crecimiento_posicional :
    (∀ (t : List Row) (c : String), todasFin t = true →
      (factorFilas t c).length = (entidadFilas t c).length ∧
      ∀ j : Nat, j < (entidadFilas t c).length →
        ((factorFilas t c).getD j default).casos_semana
          = (if j < 6 then FVal.nan
              else .fin (weekSum (casosDe (entidadFilas t c)) j)) ∧
        ((factorFilas t c).getD j default).factor_crec_7d
          = fdiv
              (if j < 6 then FVal.nan
                else .fin (weekSum (casosDe (entidadFilas t c)) j))
              (if j < 13 then FVal.nan
                else .fin (weekSum (casosDe (entidadFilas t c)) (j - 7)))) ∧
    (∀ a : ℚ, fdiv (.fin a) (.fin 0) = .inf ∨ fdiv (.fin a) (.fin 0) = .ninf
      ∨ fdiv (.fin a) (.fin 0) = .nan) ∧
    (∀ v : FVal, fdiv FVal.nan v = FVal.nan ∧ fdiv v FVal.nan = FVal.nan) := by
  refine ⟨?_, ?_, ?_⟩
  · intro t c hfin
    have hfins : (entidadFilas t c).map (fun r => r.new_cases)
        = (casosDe (entidadFilas t c)).map FVal.fin := entidadFilas_fin t c hfin
    have hINlen : (groupRun statSum (fun r : Row => r.new_cases) [] (entidadFilas t c)).length
        = (entidadFilas t c).length := groupRun_length _ _ _ _
    have hOUTlen : (groupRun statShift (fun p : Row × FVal => p.2) []
          (groupRun statSum (fun r : Row => r.new_cases) [] (entidadFilas t c))).length
        = (groupRun statSum (fun r : Row => r.new_cases) [] (entidadFilas t c)).length :=
      groupRun_length _ _ _ _
    have hchar := grow_char t c
    constructor
    · rw [hchar, List.length_map, hOUTlen, hINlen]
    · intro j hj
      have hjOUT : j < (groupRun statShift (fun p : Row × FVal => p.2) []
          (groupRun statSum (fun r : Row => r.new_cases) [] (entidadFilas t c))).length := by
        rw [hOUTlen, hINlen]; exact hj
      have hout : (factorFilas t c).getD j default
          = (fun p : (Row × FVal) × FVal =>
              (⟨p.1.1.date, p.1.1.country, p.1.2, fdiv p.1.2 p.2⟩ : GrowthOut))
            ((groupRun statShift (fun p : Row × FVal => p.2) []
                (groupRun statSum (fun r : Row => r.new_cases) []
                  (entidadFilas t c))).getD j ((default, FVal.nan), FVal.nan)) := by
        rw [hchar]
        exact getD_map_of_lt _ _ j hjOUT _ _
      have hONE := groupRun_getD statShift (fun p : Row × FVal => p.2)
        (groupRun statSum (fun r : Row => r.new_cases) [] (entidadFilas t c))
        (default, FVal.nan) FVal.nan [] j (by rw [hINlen]; exact hj)
      have hTWO := groupRun_getD statSum (fun r : Row => r.new_cases)
        (entidadFilas t c) default FVal.nan [] j hj
      have hsnd : (groupRun statSum (fun r : Row => r.new_cases)
            [] (entidadFilas t c)).map (fun p => p.2)
          = winList statSum [] ((entidadFilas t c).map (fun r => r.new_cases)) :=
        groupRun_map_snd _ _ _ _
      have hcaslen : j < (casosDe (entidadFilas t c)).length := by
        simpa [casosDe] using hj
      have hcs : statSum (([] : List FVal)
            ++ ((entidadFilas t c).take (j + 1)).map (fun r => r.new_cases))
          = (if j < 6 then FVal.nan
              else .fin (weekSum (casosDe (entidadFilas t c)) j)) := by
        rw [List.nil_append, List.map_take, hfins, ← List.map_take]
        rw [List.map_take]
        exact statSum_take_fins (casosDe (entidadFilas t c)) j hcaslen
      have hprev : statShift (([] : List FVal)
            ++ ((groupRun statSum (fun r : Row => r.new_cases) []
                  (entidadFilas t c)).take (j + 1)).map (fun p => p.2))
          = (if j < 13 then FVal.nan
              else .fin (weekSum (casosDe (entidadFilas t c)) (j - 7))) := by
        rw [List.nil_append, List.map_take, hsnd]
        have hWlen : (winList statSum
            [] ((entidadFilas t c).map (fun r => r.new_cases))).length
            = (entidadFilas t c).length := by
          rw [winList_length, List.length_map]
        rw [statShift_take _ j (by rw [hWlen]; exact hj)]
        by_cases h7 : j < 7
        · rw [if_pos h7, if_pos (by omega)]
        · rw [if_neg h7]
          rw [winList_getD _ _ _ _ (j - 7) (by rw [List.length_map]; omega)]
          rw [List.nil_append, hfins, ← List.map_take, List.map_take]
          rw [statSum_take_fins (casosDe (entidadFilas t c)) (j - 7) (by omega)]
          by_cases h13 : j < 13
          · rw [if_pos (by omega), if_pos h13]
          · rw [if_neg (by omega), if_neg h13]
      rw [hout, hONE, hTWO]
      constructor
      · exact hcs
      · rw [hcs, hprev]
  · intro a
    by_cases h1 : 0 < a
    · left; simp [fdiv, h1]
    · by_cases h2 : a < 0
      · right; left; simp [fdiv, h1, h2]
      · right; right; simp [fdiv, h1, h2]
  · intro v
    rcases v with _ | _ | _ | q <;> exact ⟨rfl, rfl⟩

theorem c5_crecimiento_posicional_witness :
    todasFin tabla14 = true ∧
    (factorFilas tabla14 "Ecuador").length = (entidadFilas tabla14 "Ecuador").length :=
  ⟨by decide, (c5_crecimiento_posicional.1 tabla14 "Ecuador" (by decide)).1⟩
